import Mathlib

/-!
Verification of the wedding-website backend (TypeScript serverless functions)
against its natural-language specification.

The development shallowly embeds the code that the claims touch:

* the cursor codec `encodeCursor`/`decodeCursor` (common library), including a
  model of `JSON.stringify`/`JSON.parse` on the JSON fragment the codec
  exercises and of Node's lenient base64 and UTF-8 codecs;
* the DynamoDB range-query collaborator (`query` over an ordered partition,
  with `Limit`, `ExclusiveStartKey`, `ScanIndexForward` and
  `LastEvaluatedKey` semantics);
* the two comment-listing handlers: the legacy page-index walk (`queryPage`)
  and the cursor-based handler (`listComments`);
* the subscription delete/create handlers, the comment-creation handler with
  its best-effort SNS publish, and the CAPTCHA validator's outcome
  classification.

Strings are modelled as `List Char`; machine integers do not overflow in any
of the embedded code paths (all counts are small), so `Nat`/`Int` are used
directly.
-/

set_option maxHeartbeats 1000000

namespace WeddingBE

/-! ## JSON values

The model of the JavaScript values that flow through the cursor codec:
`JSON.parse` output and `JSON.stringify` input.  Numbers are kept as their
raw textual form (`numRaw`); the codec never interprets them, it is an opaque
pass-through.  Objects and arrays are separate mutual inductives so that
equality is decidable. -/

mutual

inductive Json where
  | str (s : List Char)
  | numRaw (s : List Char)
  | jbool (b : Bool)
  | jnull
  | arr (elems : JElems)
  | obj (fields : JFields)
  deriving DecidableEq

inductive JElems where
  | nil
  | cons (v : Json) (rest : JElems)
  deriving DecidableEq

inductive JFields where
  | nil
  | cons (name : List Char) (v : Json) (rest : JFields)
  deriving DecidableEq

end

/-- Lowercase hexadecimal digit, as produced by `JSON.stringify`'s
control-character escapes. -/
def hexDigitChar (n : Nat) : Char :=
  if n < 10 then Char.ofNat (48 + n) else Char.ofNat (87 + n)

/-- One character of `JSON.stringify`'s string escaping: quote and backslash
are escaped, the short escapes are used for the usual control characters, any
other control character becomes a `\u00xx` escape, and everything else is
emitted verbatim. -/
def escapeChar (c : Char) : List Char :=
  if c = '"' then ['\\', '"']
  else if c = '\\' then ['\\', '\\']
  else if c.toNat = 8 then ['\\', 'b']
  else if c.toNat = 9 then ['\\', 't']
  else if c.toNat = 10 then ['\\', 'n']
  else if c.toNat = 12 then ['\\', 'f']
  else if c.toNat = 13 then ['\\', 'r']
  else if c.toNat < 32 then
    ['\\', 'u', '0', '0', hexDigitChar (c.toNat / 16), hexDigitChar (c.toNat % 16)]
  else [c]

/-- `JSON.stringify` escaping of a whole string body. -/
def escapeString : List Char → List Char
  | [] => []
  | c :: rest => escapeChar c ++ escapeString rest

/-- A JSON string literal: quote, escaped body, quote. -/
def quoteString (s : List Char) : List Char :=
  '"' :: escapeString s ++ ['"']

mutual

/-- `JSON.stringify` (no indentation — the form the cursor codec uses). -/
def stringifyVal : Json → List Char
  | .str s => quoteString s
  | .numRaw s => s
  | .jbool true => 't' :: 'r' :: 'u' :: 'e' :: []
  | .jbool false => 'f' :: 'a' :: 'l' :: 's' :: 'e' :: []
  | .jnull => 'n' :: 'u' :: 'l' :: 'l' :: []
  | .arr es => '[' :: stringifyElems es ++ [']']
  | .obj fs => '{' :: stringifyFields fs ++ ['}']

/-- Comma-separated array elements. -/
def stringifyElems : JElems → List Char
  | .nil => []
  | .cons v .nil => stringifyVal v
  | .cons v rest => stringifyVal v ++ ',' :: stringifyElems rest

/-- Comma-separated `"name":value` members. -/
def stringifyFields : JFields → List Char
  | .nil => []
  | .cons n v .nil => quoteString n ++ ':' :: stringifyVal v
  | .cons n v rest => (quoteString n ++ ':' :: stringifyVal v) ++ ',' :: stringifyFields rest

end

/-! ## Base64 (Node `Buffer` semantics)

`Buffer.from(s, "base64")` never throws: it accepts both the standard and the
URL-safe alphabet, skips characters outside the alphabet, ignores padding and
decodes a lenient tail.  Encoding is standard base64 with `=` padding. -/

/-- Standard base64 alphabet character for a 6-bit value. -/
def b64Char (n : Nat) : Char :=
  if n < 26 then Char.ofNat (65 + n)
  else if n < 52 then Char.ofNat (97 + (n - 26))
  else if n < 62 then Char.ofNat (48 + (n - 52))
  else if n = 62 then '+'
  else '/'

/-- 6-bit value of a base64 character; accepts both the standard and the
URL-safe alphabet (Node is lenient), `none` for everything else (such
characters are skipped by the decoder, as Node does). -/
def b64Val (c : Char) : Option Nat :=
  if 65 ≤ c.toNat ∧ c.toNat ≤ 90 then some (c.toNat - 65)
  else if 97 ≤ c.toNat ∧ c.toNat ≤ 122 then some (c.toNat - 97 + 26)
  else if 48 ≤ c.toNat ∧ c.toNat ≤ 57 then some (c.toNat - 48 + 52)
  else if c = '+' ∨ c = '-' then some 62
  else if c = '/' ∨ c = '_' then some 63
  else none

/-- Base64-encode a byte list (bytes are `Nat`s below 256). -/
def base64Encode : List Nat → List Char
  | [] => []
  | [a] => [b64Char (a / 4), b64Char (a % 4 * 16), '=', '=']
  | [a, b] => [b64Char (a / 4), b64Char (a % 4 * 16 + b / 16), b64Char (b % 16 * 4), '=']
  | a :: b :: c :: rest =>
      b64Char (a / 4) :: b64Char (a % 4 * 16 + b / 16) ::
      b64Char (b % 16 * 4 + c / 64) :: b64Char (c % 64) :: base64Encode rest

/-- Reassemble bytes from a list of 6-bit values, with Node's lenient tail
handling (4 values give 3 bytes, 3 give 2, 2 give 1, a lone value is
dropped). -/
def b64Group : List Nat → List Nat
  | w :: x :: y :: z :: rest =>
      (w * 4 + x / 16) :: (x % 16 * 16 + y / 4) :: (y % 4 * 64 + z) :: b64Group rest
  | [w, x, y] => [w * 4 + x / 16, x % 16 * 16 + y / 4]
  | [w, x] => [w * 4 + x / 16]
  | _ => []

/-- Node-style lenient base64 decoding: keep only alphabet characters, then
regroup.  Total — it never fails. -/
def base64Decode (s : List Char) : List Nat :=
  b64Group (s.filterMap b64Val)

/-! ## UTF-8 (Node `Buffer` semantics)

`Buffer.from(s, "utf8")` encodes; `buf.toString("utf8")` decodes and never
throws (invalid sequences become replacement characters).  The decoder below
is total; on valid sequences it inverts the encoder. -/

/-- UTF-8 bytes of one character. -/
def utf8EncodeChar (c : Char) : List Nat :=
  let n := c.toNat
  if n < 128 then [n]
  else if n < 2048 then [192 + n / 64, 128 + n % 64]
  else if n < 65536 then [224 + n / 4096, 128 + n / 64 % 64, 128 + n % 64]
  else [240 + n / 262144, 128 + n / 4096 % 64, 128 + n / 64 % 64, 128 + n % 64]

/-- UTF-8 bytes of a string. -/
def utf8Encode : List Char → List Nat
  | [] => []
  | c :: rest => utf8EncodeChar c ++ utf8Encode rest

/-- The Unicode replacement character, emitted for invalid byte sequences. -/
def replChar : Char := Char.ofNat 65533

/-- Whether a byte is a UTF-8 continuation byte. -/
def isCont (b : Nat) : Bool := 128 ≤ b ∧ b < 192

/-- Decode one UTF-8 sequence: the lead byte `b`, the following bytes `rest`.
Returns the decoded character (a replacement character when the sequence is
invalid or truncated) and how many continuation bytes were consumed. -/
def utf8Step (b : Nat) (rest : List Nat) : Char × Nat :=
  if b < 128 then (Char.ofNat b, 0)
  else if b < 192 then (replChar, 0)
  else if b < 224 then
    match rest with
    | b1 :: _ =>
      if isCont b1 then (Char.ofNat ((b - 192) * 64 + (b1 - 128)), 1)
      else (replChar, 0)
    | [] => (replChar, 0)
  else if b < 240 then
    match rest with
    | b1 :: b2 :: _ =>
      if isCont b1 ∧ isCont b2 then
        (Char.ofNat ((b - 224) * 4096 + (b1 - 128) * 64 + (b2 - 128)), 2)
      else (replChar, 0)
    | _ => (replChar, 0)
  else
    match rest with
    | b1 :: b2 :: b3 :: _ =>
      if isCont b1 ∧ isCont b2 ∧ isCont b3 then
        (Char.ofNat ((b - 240) * 262144 + (b1 - 128) * 4096 + (b2 - 128) * 64 + (b3 - 128)), 3)
      else (replChar, 0)
    | _ => (replChar, 0)

/-- Fueled UTF-8 decoding loop; every step consumes at least the lead byte,
so `length + 1` fuel always suffices. -/
def utf8DecodeF : Nat → List Nat → List Char
  | 0, _ => []
  | _ + 1, [] => []
  | fuel + 1, b :: rest =>
    let s := utf8Step b rest
    s.1 :: utf8DecodeF fuel (rest.drop s.2)

/-- Total UTF-8 decoding with replacement characters for invalid input. -/
def utf8Decode (l : List Nat) : List Char := utf8DecodeF (l.length + 1) l

/-! ## JSON parsing (`JSON.parse`)

A recursive-descent reader for the JSON fragment the codec exercises
(objects, arrays, strings with escapes, raw numbers, literals; the encoder
emits no whitespace, so none is skipped).  `parseVal` consumes fuel on every
recursive step; `jsonParse` supplies `length + 1` fuel, which is always
sufficient.  Everything is total: a failed parse is `none`, the model of a
thrown-and-caught `SyntaxError`. -/

/-- Hexadecimal digit value (both cases), `none` otherwise. -/
def hexVal (c : Char) : Option Nat :=
  if 48 ≤ c.toNat ∧ c.toNat ≤ 57 then some (c.toNat - 48)
  else if 97 ≤ c.toNat ∧ c.toNat ≤ 102 then some (c.toNat - 87)
  else if 65 ≤ c.toNat ∧ c.toNat ≤ 70 then some (c.toNat - 55)
  else none

/-- Single-character string escapes accepted by `JSON.parse`. -/
def unescapeChar (c : Char) : Option Char :=
  if c = '"' then some '"'
  else if c = '\\' then some '\\'
  else if c = '/' then some '/'
  else if c = 'b' then some (Char.ofNat 8)
  else if c = 'f' then some (Char.ofNat 12)
  else if c = 'n' then some (Char.ofNat 10)
  else if c = 'r' then some (Char.ofNat 13)
  else if c = 't' then some (Char.ofNat 9)
  else none

/-- Scan a string literal body up to (and past) the closing quote, resolving
escapes.  Input starts just after the opening quote; returns the string value
and the remaining characters. -/
def scanString : List Char → Option (List Char × List Char)
  | [] => none
  | c :: rest =>
    if c = '"' then some ([], rest)
    else if c = '\\' then
      match rest with
      | [] => none
      | e :: rest2 =>
        if e = 'u' then
          match rest2 with
          | h1 :: h2 :: h3 :: h4 :: rest3 =>
            match hexVal h1, hexVal h2, hexVal h3, hexVal h4 with
            | some a, some b, some c2, some d =>
              (scanString rest3).map fun r =>
                (Char.ofNat (((a * 16 + b) * 16 + c2) * 16 + d) :: r.1, r.2)
            | _, _, _, _ => none
          | _ => none
        else
          match unescapeChar e with
          | some ec => (scanString rest2).map fun r => (ec :: r.1, r.2)
          | none => none
    else (scanString rest).map fun r => (c :: r.1, r.2)

/-- Characters that may continue a raw number token. -/
def isNumChar (c : Char) : Bool :=
  (48 ≤ c.toNat ∧ c.toNat ≤ 57) ∨ c = '-' ∨ c = '+' ∨ c = '.' ∨ c = 'e' ∨ c = 'E'

/-- Characters that may start a number. -/
def isNumStart (c : Char) : Bool := (48 ≤ c.toNat ∧ c.toNat ≤ 57) ∨ c = '-'

mutual

/-- Parse one JSON value.  Fuel decreases on every recursive call. -/
def parseVal : Nat → List Char → Option (Json × List Char)
  | 0, _ => none
  | _ + 1, [] => none
  | fuel + 1, c :: rest =>
    if c = '"' then (scanString rest).map fun r => (Json.str r.1, r.2)
    else if c = '{' then
      match rest with
      | '}' :: r => some (.obj .nil, r)
      | _ => (parseFields fuel rest).map fun r => (Json.obj r.1, r.2)
    else if c = '[' then
      match rest with
      | ']' :: r => some (.arr .nil, r)
      | _ => (parseElems fuel rest).map fun r => (Json.arr r.1, r.2)
    else if c = 't' then
      match rest with
      | 'r' :: 'u' :: 'e' :: r => some (.jbool true, r)
      | _ => none
    else if c = 'f' then
      match rest with
      | 'a' :: 'l' :: 's' :: 'e' :: r => some (.jbool false, r)
      | _ => none
    else if c = 'n' then
      match rest with
      | 'u' :: 'l' :: 'l' :: r => some (.jnull, r)
      | _ => none
    else if isNumStart c then
      let ds := rest.takeWhile isNumChar
      some (.numRaw (c :: ds), rest.dropWhile isNumChar)
    else none

/-- Parse the members of a nonempty object, consuming the closing brace. -/
def parseFields : Nat → List Char → Option (JFields × List Char)
  | 0, _ => none
  | fuel + 1, s =>
    match s with
    | '"' :: rest =>
      match scanString rest with
      | some (name, r1) =>
        match r1 with
        | ':' :: r2 =>
          match parseVal fuel r2 with
          | some (v, r3) =>
            match r3 with
            | ',' :: r4 => (parseFields fuel r4).map fun r => (JFields.cons name v r.1, r.2)
            | '}' :: r4 => some (JFields.cons name v .nil, r4)
            | _ => none
          | none => none
        | _ => none
      | none => none
    | _ => none

/-- Parse the elements of a nonempty array, consuming the closing bracket. -/
def parseElems : Nat → List Char → Option (JElems × List Char)
  | 0, _ => none
  | fuel + 1, s =>
    match parseVal fuel s with
    | some (v, r1) =>
      match r1 with
      | ',' :: r2 => (parseElems fuel r2).map fun r => (JElems.cons v r.1, r.2)
      | ']' :: r2 => some (JElems.cons v .nil, r2)
      | _ => none
    | none => none

end

/-- `JSON.parse`: parse a complete value; trailing characters fail. -/
def jsonParse (s : List Char) : Option Json :=
  match parseVal (s.length + 1) s with
  | some (v, []) => some v
  | _ => none

/-! ## Cursor codec

From the common library:

```
export function encodeCursor(lek?: Record<string, any>) {
  return lek
    ? Buffer.from(JSON.stringify(lek), "utf8").toString("base64")
    : undefined;
}
export function decodeCursor(cursor?: string): Record<string, any> | undefined {
  if (!cursor) return undefined;
  try {
    return JSON.parse(Buffer.from(cursor, "base64").toString("utf8"));
  } catch {
    return undefined; // invalid cursor -> treated as "no cursor"
  }
}
```

The absent/falsy native key is modelled by `Option`. -/

/-- `encodeCursor`: serialize the native key to JSON, UTF-8 encode, base64. -/
def encodeCursor : Option Json → Option (List Char)
  | none => none
  | some j => some (base64Encode (utf8Encode (stringifyVal j)))

/-- `decodeCursor`: empty or absent cursor is `none`; otherwise base64-decode
(leniently, as Node does), UTF-8 decode and JSON-parse; a parse failure is
`none` (caught exception), never an error. -/
def decodeCursor : Option (List Char) → Option Json
  | none => none
  | some s => if s = [] then none else jsonParse (utf8Decode (base64Decode s))

/-- A DynamoDB attribute value of key shape: a one-member object
`"S"` or `"N"` whose value is a string, as `LastEvaluatedKey` carries. -/
def isAttrJson : Json → Bool
  | .obj (.cons t (.str _) .nil) => t = ['S'] || t = ['N']
  | _ => false

/-- Members of a native continuation key: attribute name to scalar value. -/
def isNativeKeyFields : JFields → Bool
  | .nil => true
  | .cons _ v rest => isAttrJson v && isNativeKeyFields rest

/-- A valid native continuation key: a mapping of attribute names to scalar
(string-typed) values, the shape DynamoDB returns as `LastEvaluatedKey`. -/
def isNativeKey : Json → Bool
  | .obj fs => isNativeKeyFields fs
  | _ => false

/-! ## The ordered key-value store collaborator

One comment partition (a single `photoId`) is the list of its items in
ascending sort-key (`createdAt#commentId`) order.  A range query takes
`Limit`, `ExclusiveStartKey` and `ScanIndexForward`; it returns up to
`Limit` items from the resume position in scan direction, and a
`LastEvaluatedKey` exactly when it stopped because of the limit — also when
the limit happened to fall on the final item, which DynamoDB cannot see. -/

/-- A stored comment row: its primary-key attribute map (the shape that
becomes a `LastEvaluatedKey`) and the comment attributes. -/
structure CommentRec where
  photoId : List Char
  commentId : List Char
  createdAt : List Char
  authorName : List Char
  content : List Char
  deriving DecidableEq

/-- One item of a partition. -/
structure StoreItem where
  key : Json
  comment : CommentRec
  deriving DecidableEq

/-- Result of a bounded range query. -/
structure QueryOut where
  items : List StoreItem
  lastEvaluatedKey : Option Json
  count : Nat
  deriving DecidableEq

/-- Resume strictly after the item whose key is `k` (the
`ExclusiveStartKey` position). -/
def afterKey : List StoreItem → Json → List StoreItem
  | [], _ => []
  | it :: rest, k => if it.key = k then rest else afterKey rest k

/-- A bounded range query against one partition. -/
def query (part : List StoreItem) (forward : Bool) (limit : Nat) (esk : Option Json) : QueryOut :=
  let seq := if forward then part else part.reverse
  let rem := match esk with
    | none => seq
    | some k => afterKey seq k
  let items := rem.take limit
  { items := items
    lastEvaluatedKey :=
      if 0 < limit ∧ items.length = limit then (items.getLast?).map StoreItem.key else none
    count := items.length }

/-- An unbounded `Select: COUNT` query from a resume position: counts all
remaining items and, having exhausted the partition, returns no continuation
key. -/
def queryCount (part : List StoreItem) (esk : Option Json) : Nat × Option Json :=
  let rem := match esk with
    | none => part
    | some k => afterKey part k
  (rem.length, none)

/-- `countAll`: the do-while count loop.  The model's unbounded count query
never truncates, so the loop body runs exactly once. -/
def countAll (part : List StoreItem) : Nat :=
  (queryCount part none).1

/-! ## Mode A — page-index listing (legacy handler)

```
for (let i = 1; i <= pageIndex; i++) {
  const res = await ddb.send(new QueryCommand({ ..., Limit: pageSize,
    ExclusiveStartKey: lastKey, ScanIndexForward: order === "asc" }));
  pageItems = res.Items ?? [];
  lastKey = res.LastEvaluatedKey;
  if ((!lastKey || (res.Count ?? 0) < pageSize) && i < pageIndex) {
    pageItems = []; lastKey = undefined; break;
  }
}
return { pageItems, hasNext: !!lastKey };
```

`queryPageGo n lk` runs the remaining `n` iterations starting from
continuation key `lk`; `n = 1` is the final iteration (`i = pageIndex`),
where the early-exit guard `i < pageIndex` is false. -/

def queryPageGo (part : List StoreItem) (forward : Bool) (pageSize : Nat) :
    Nat → Option Json → List StoreItem × Option Json
  | 0, _ => ([], none)
  | 1, lk =>
    let res := query part forward pageSize lk
    (res.items, res.lastEvaluatedKey)
  | n + 2, lk =>
    let res := query part forward pageSize lk
    if res.lastEvaluatedKey = none ∨ res.count < pageSize then ([], none)
    else queryPageGo part forward pageSize (n + 1) res.lastEvaluatedKey

/-- The sequential page hop emulating OFFSET/LIMIT; returns the requested
page's items and the `hasNext` flag (`!!lastKey`). -/
def queryPage (part : List StoreItem) (forward : Bool) (pageIndex pageSize : Nat) :
    List StoreItem × Bool :=
  let r := queryPageGo part forward pageSize pageIndex none
  (r.1, r.2.isSome)

/-- `totalPagesCount = totalElements === 0 ? 0 : Math.ceil(totalElements /
pageSize)`; for natural inputs the float ceiling is ceiling division. -/
def totalPages (totalElements pageSize : Nat) : Nat :=
  if totalElements = 0 then 0 else (totalElements + pageSize - 1) / pageSize

/-- Sort order of a listing request. -/
inductive Order where
  | asc
  | desc
  deriving DecidableEq

/-- `raw?.toLowerCase() === "asc" ? "asc" : "desc"` (lower-casing modelled on
the characters). -/
def parseOrder (raw : Option (List Char)) : Order :=
  if raw.map (List.map Char.toLower) = some ('a' :: 's' :: 'c' :: []) then .asc else .desc

/-- The legacy handler's success path: page walk plus full count. -/
structure ModeAResult where
  elements : List CommentRec
  hasNext : Bool
  pageIndex : Nat
  totalPagesCount : Nat
  totalElements : Nat
  deriving DecidableEq

/-- Mode A listing (post-validation): walk to the requested page, then count
the whole partition. -/
def listCommentsModeA (part : List StoreItem) (pageIndex pageSize : Nat) (order : Order) :
    ModeAResult :=
  let r := queryPage part (order = Order.asc) pageIndex pageSize
  let totalElements := countAll part
  { elements := r.1.map StoreItem.comment
    hasNext := r.2
    pageIndex := pageIndex
    totalPagesCount := totalPages totalElements pageSize
    totalElements := totalElements }

/-! ## Mode B — cursor listing (comment-read handler) -/

/-- Effective limit:
```
let limit = parseInt(qs.limit ?? "", 10);
if (!Number.isFinite(limit) || limit <= 0) limit = conf.pagination.defaultLimit;
if (limit > 1000) limit = 1000;
```
`raw = none` models a missing or non-numeric (`NaN`) limit. -/
def effectiveLimit (defaultLimit : Nat) (raw : Option Int) : Nat :=
  let l : Nat := match raw with
    | none => defaultLimit
    | some v => if v ≤ 0 then defaultLimit else v.toNat
  if 1000 < l then 1000 else l

/-- A validated Mode B request. -/
structure ModeBRequest where
  photoId : List Char
  limit : Nat
  order : Order
  exclusiveStartKey : Option Json
  deriving DecidableEq

/-- `parseAndValidateRequest` of the comment-read handler: fails (`none`)
only when the table name is unset or `photoId` is missing; the cursor is
decoded leniently and can never cause a rejection. -/
def parseReadRequest (commentsTableSet : Bool) (defaultLimit : Nat)
    (defaultOrder : List Char) (photoId : Option (List Char)) (limitRaw : Option Int)
    (orderRaw : Option (List Char)) (cursor : Option (List Char)) : Option ModeBRequest :=
  if commentsTableSet = false then none
  else
    match photoId with
    | none => none
    | some pid =>
      let cur : Option (List Char) := match cursor with
        | some s => if s = [] then none else some s
        | none => none
      some { photoId := pid
             limit := effectiveLimit defaultLimit limitRaw
             order := parseOrder (some (orderRaw.getD defaultOrder))
             exclusiveStartKey := decodeCursor cur }

/-- The cursor-mode page response. -/
structure PaginatedResult where
  elements : List CommentRec
  cursor : Option (List Char)
  hasNext : Bool
  totalElements : Nat
  totalPagesCount : Nat
  deriving DecidableEq

/-- The comment-read handler's success path: exactly one bounded range query
from the decoded cursor position, then the full count scan. -/
def listComments (part : List StoreItem) (req : ModeBRequest) : PaginatedResult :=
  let q := query part (req.order = Order.asc) req.limit req.exclusiveStartKey
  let totalElements := countAll part
  { elements := q.items.map StoreItem.comment
    cursor := encodeCursor q.lastEvaluatedKey
    hasNext := q.lastEvaluatedKey.isSome
    totalElements := totalElements
    totalPagesCount := totalPages totalElements req.limit }

/-! ## Response envelope (web utils) -/

/-- A transport response; the JSON body is kept structured (the handler
serializes it with `JSON.stringify` on the way out). -/
structure WebResponse where
  statusCode : Nat
  body : Json
  deriving DecidableEq

/-- `webUtils.success`: the body is exactly the payload. -/
def wuSuccess (statusCode : Nat) (body : Json) : WebResponse :=
  { statusCode := statusCode, body := body }

/-- `webUtils.failure`: the body is the error-code/message record. -/
def wuFailure (statusCode : Nat) (errorCode message : List Char) : WebResponse :=
  wuSuccess statusCode
    (.obj (.cons ("errorCode".toList) (.str errorCode)
      (.cons ("message".toList) (.str message) .nil)))

/-! ## Subscriptions -/

/-- A subscription row's composite key. -/
abbrev SubKey := List Char × List Char

/-- JS `toLowerCase` on the characters. -/
def toLowerList (s : List Char) : List Char := s.map Char.toLower

/-- `DeleteItemCommand` with `ReturnValues: "ALL_OLD"`: removes the keyed row
(keys are unique in the store) and reports whether it existed.  Returns the
new table and the `existed` flag. -/
def deleteSubscription (tbl : List SubKey) (photoId email : List Char) :
    List SubKey × Bool :=
  (tbl.filter (fun k => decide (k ≠ (photoId, email))), decide ((photoId, email) ∈ tbl))

/-- Outcome of the subscription-delete handler: the response and the
resulting table. -/
structure SubDeleteOutcome where
  response : WebResponse
  table : List SubKey
  deriving DecidableEq

/-- The subscription-delete handler (post-validation): always an idempotent
200 with the `existed` report. -/
def subscriptionDeleteHandler (tbl : List SubKey) (photoId email : List Char) :
    SubDeleteOutcome :=
  let d := deleteSubscription tbl photoId email
  { response := wuSuccess 200
      (.obj (.cons ("photoId".toList) (.str photoId)
        (.cons ("email".toList) (.str email)
          (.cons ("unsubscribed".toList) (.jbool true)
            (.cons ("existed".toList) (.jbool d.2) .nil)))))
    table := d.1 }

/-- Store-side failures surfaced to handlers. -/
inductive DbError where
  | conditionalCheckFailed
  deriving DecidableEq

/-- `PutItemCommand` with `attribute_not_exists(photoId) AND
attribute_not_exists(email)`: fails when a row with the same composite key
already exists; the stored email is lowercased. -/
def putSubscription (tbl : List SubKey) (photoId email : List Char) :
    Except DbError (List SubKey) :=
  let key : SubKey := (photoId, toLowerList email)
  if key ∈ tbl then .error .conditionalCheckFailed
  else .ok (tbl ++ [key])

/-- The subscription-create handler (post-validation).  `recaptchaToken`,
`captchaIsHuman` and `captchaStatus` describe the configured CAPTCHA gate and
the validator's verdict; any store error is handled by the generic catch,
which maps it to a 500 `internal_service_error`. -/
def subscriptionCreateHandler (useRecaptcha : Bool) (recaptchaToken : Option (List Char))
    (captchaIsHuman : Bool) (captchaStatus : Nat) (tbl : List SubKey)
    (photoId email : List Char) : WebResponse × List SubKey :=
  if useRecaptcha then
    if recaptchaToken = none then
      (wuFailure 400 ("missing_recaptcha_token".toList) ("Missing reCAPTCHA token".toList), tbl)
    else if captchaIsHuman = false then
      if captchaStatus = 400 then
        (wuFailure 403 ("captcha_failed".toList) ("Invalid captcha, please try again.".toList), tbl)
      else
        (wuFailure 503 ("captcha_unavailable".toList)
          ("Captcha verification service is temporarily unavailable. Please try again.".toList),
          tbl)
    else
      match putSubscription tbl photoId email with
      | .ok tbl2 => (wuSuccess 201 (.obj .nil), tbl2)
      | .error _ =>
        (wuFailure 500 ("internal_service_error".toList)
          ("An unexpected error occurred".toList), tbl)
  else
    match putSubscription tbl photoId email with
    | .ok tbl2 => (wuSuccess 201 (.obj .nil), tbl2)
    | .error _ =>
      (wuFailure 500 ("internal_service_error".toList)
        ("An unexpected error occurred".toList), tbl)

/-! ## Comment creation with best-effort notification -/

/-- A comment row's composite key: `(photoId, createdAt#commentId)`. -/
abbrev CommentKey := List Char × List Char

/-- Conditional comment write: unique on the composite sort key; returns the
new table and the created comment. -/
def putComment (tbl : List (CommentKey × CommentRec))
    (photoId authorName content commentId createdAt : List Char) :
    Except DbError (List (CommentKey × CommentRec) × CommentRec) :=
  let sk := createdAt ++ '#' :: commentId
  let key : CommentKey := (photoId, sk)
  if key ∈ tbl.map Prod.fst then .error .conditionalCheckFailed
  else
    let comment : CommentRec :=
      { photoId := photoId, commentId := commentId, createdAt := createdAt
        authorName := authorName, content := content }
    .ok (tbl ++ [(key, comment)], comment)

/-- Whether the SNS publish attempt succeeds or throws. -/
inductive SnsOutcome where
  | ok
  | failed
  deriving DecidableEq

/-- The raw `snsClient.send`: throws on failure. -/
def snsSend : SnsOutcome → Except (List Char) Unit
  | .ok => .ok ()
  | .failed => .error ("publish failed".toList)

/-- `publishSnsEvent`: the whole publish is inside `try/catch`; an error is
logged and swallowed, so the function always returns normally. -/
def publishSnsEvent (o : SnsOutcome) : Except (List Char) Unit :=
  match snsSend o with
  | .ok _ => .ok ()
  | .error _ => .ok ()

/-- The created comment as the 201 response payload. -/
def commentToJson (c : CommentRec) : Json :=
  .obj (.cons ("photoId".toList) (.str c.photoId)
    (.cons ("commentId".toList) (.str c.commentId)
      (.cons ("createdAt".toList) (.str c.createdAt)
        (.cons ("authorName".toList) (.str c.authorName)
          (.cons ("content".toList) (.str c.content) .nil)))))

/-- The comment-creation handler (post-validation): conditional write, build
the 201 result, then the best-effort publish; only a *thrown* error after the
write could reach the generic catch and turn the outcome into a 500. -/
def commentCreationHandler (tbl : List (CommentKey × CommentRec))
    (photoId authorName content commentId createdAt : List Char) (pub : SnsOutcome) :
    WebResponse × List (CommentKey × CommentRec) :=
  match putComment tbl photoId authorName content commentId createdAt with
  | .error _ =>
    (wuFailure 500 ("internal_service_error".toList) ("An unexpected error occurred".toList),
      tbl)
  | .ok (tbl2, comment) =>
    let result := wuSuccess 201 (commentToJson comment)
    match publishSnsEvent pub with
    | .ok _ => (result, tbl2)
    | .error _ =>
      (wuFailure 500 ("internal_service_error".toList) ("An unexpected error occurred".toList),
        tbl2)

/-! ## CAPTCHA validator -/

/-- The validator's reason codes. -/
inductive CaptchaReason where
  | expired
  | invalid
  | duplicate
  | badRequest
  | serverError
  | networkError
  deriving DecidableEq

/-- `classifyReason` over Google's error codes (first match wins):
`timeout-or-duplicate` forces a re-solve (`expired`); missing/invalid
response tokens are `invalid`; `bad-request` passes through; secret problems
and anything unknown are `server-error`. -/
def classifyReason (errorCodes : List (List Char)) : CaptchaReason :=
  if ("timeout-or-duplicate".toList) ∈ errorCodes then .expired
  else if ("invalid-input-response".toList) ∈ errorCodes
      ∨ ("missing-input-response".toList) ∈ errorCodes then .invalid
  else if ("bad-request".toList) ∈ errorCodes then .badRequest
  else if ("missing-input-secret".toList) ∈ errorCodes
      ∨ ("invalid-input-secret".toList) ∈ errorCodes then .serverError
  else .serverError

/-- What happened to the outbound verification call: a response from Google
(with its `success` flag and error codes), a client-side timeout
(`ECONNABORTED`), another transport-level failure, or an unexpected
exception. -/
inductive UpstreamResult where
  | response (success : Bool) (errorCodes : List (List Char))
  | timeout
  | networkFailure (code : List Char)
  | unexpected
  deriving DecidableEq

/-- The validator's outcome: HTTP status plus the response's `success` and
`reason` fields. -/
structure CaptchaOutcome where
  status : Nat
  success : Bool
  reason : Option CaptchaReason
  deriving DecidableEq

/-- The captcha-validator handler after token and secret checks: responses
are classified into the 400 class (`expired`/`invalid`/`duplicate`/
`bad-request`) or 502; a timeout is 504 `network-error`; other transport
failures are 502 `network-error`; anything else is 500. -/
def captchaHandler (u : UpstreamResult) : CaptchaOutcome :=
  match u with
  | .response true _ => { status := 200, success := true, reason := none }
  | .response false codes =>
    let reason := classifyReason codes
    if reason = .expired ∨ reason = .invalid ∨ reason = .duplicate ∨ reason = .badRequest then
      { status := 400, success := false, reason := some reason }
    else
      { status := 502, success := false, reason := some reason }
  | .timeout => { status := 504, success := false, reason := some .networkError }
  | .networkFailure _ => { status := 502, success := false, reason := some .networkError }
  | .unexpected => { status := 500, success := false, reason := some .serverError }


/-! ## Sample data for the concrete witnesses -/

/-- A sample native continuation key. -/
def sKey1 : Json :=
  .obj (.cons ("photoId".toList) (.obj (.cons (['S']) (.str ("p1".toList)) .nil))
    (.cons ("createdAt#commentId".toList)
      (.obj (.cons (['S']) (.str ("2024-05-01T10:00:00.000Z#c_one".toList)) .nil)) .nil))

/-- A second sample native continuation key. -/
def sKey2 : Json :=
  .obj (.cons ("photoId".toList) (.obj (.cons (['S']) (.str ("p1".toList)) .nil))
    (.cons ("createdAt#commentId".toList)
      (.obj (.cons (['S']) (.str ("2024-05-02T10:00:00.000Z#c_two".toList)) .nil)) .nil))

/-- A third sample native continuation key. -/
def sKey3 : Json :=
  .obj (.cons ("photoId".toList) (.obj (.cons (['S']) (.str ("p1".toList)) .nil))
    (.cons ("createdAt#commentId".toList)
      (.obj (.cons (['S']) (.str ("2024-05-03T10:00:00.000Z#c_three".toList)) .nil)) .nil))

/-- A sample comment row. -/
def sComment (n : Nat) : CommentRec :=
  { photoId := "p1".toList
    commentId := ('c' :: [Char.ofNat (48 + n)])
    createdAt := ('T' :: [Char.ofNat (48 + n)])
    authorName := "ann".toList
    content := "hi".toList }

/-- Three sample partition items in ascending sort-key order. -/
def sItem1 : StoreItem := { key := sKey1, comment := sComment 1 }

/-- Second sample item. -/
def sItem2 : StoreItem := { key := sKey2, comment := sComment 2 }

/-- Third sample item. -/
def sItem3 : StoreItem := { key := sKey3, comment := sComment 3 }

/-! ## Auxiliary definitions used by the statements and proofs -/

/-- Number of members of a JSON object. -/
def numFields : JFields → Nat
  | .nil => 0
  | .cons _ _ rest => numFields rest + 1

/-- The continuation key reached after `i` further bounded queries starting
from continuation key `lk` (the key chain the Mode A walk follows). -/
def chainFrom (part : List StoreItem) (forward : Bool) (pageSize : Nat)
    (lk : Option Json) : Nat → Option Json
  | 0 => lk
  | i + 1 =>
    chainFrom part forward pageSize (query part forward pageSize lk).lastEvaluatedKey i

/-- The Mode A early-exit guard at resume position `lk`: the store reported
no continuation key, or returned fewer than `pageSize` items. -/
def queryStops (part : List StoreItem) (forward : Bool) (pageSize : Nat)
    (lk : Option Json) : Prop :=
  (query part forward pageSize lk).lastEvaluatedKey = none ∨
    (query part forward pageSize lk).count < pageSize

instance (part : List StoreItem) (forward : Bool) (pageSize : Nat) (lk : Option Json) :
    Decidable (queryStops part forward pageSize lk) := by
  unfold queryStops; infer_instance

/-! ## Supporting lemmas -/

/-- Ceiling division over `ℚ` agrees with the `(a + b - 1) / b` form. -/
theorem ceil_div_eq (a b : Nat) (ha : 0 < a) (hb : 0 < b) :
    ⌈(a : ℚ) / b⌉₊ = (a + b - 1) / b := by
  obtain ⟨q, r, hr, he⟩ : ∃ q r, r < b ∧ a + b - 1 = b * q + r :=
    ⟨(a + b - 1) / b, (a + b - 1) % b, Nat.mod_lt _ hb, (Nat.div_add_mod _ _).symm⟩
  have hqv : (a + b - 1) / b = q := by
    rw [he, Nat.mul_add_div hb, Nat.div_eq_of_lt hr, Nat.add_zero]
  rw [hqv]
  have hbq0 : b * q ≠ 0 := by omega
  have hq1 : 1 ≤ q := by
    rcases Nat.eq_zero_or_pos q with h0 | h1
    · subst h0; simp at hbq0
    · exact h1
  obtain ⟨q0, rfl⟩ := Nat.exists_eq_add_of_le hq1
  rw [Nat.mul_add, Nat.mul_one] at he
  have hq2 : (1 + q0) ≠ 0 := by omega
  rw [Nat.ceil_eq_iff hq2]
  have hbq : (0 : ℚ) < (b : ℚ) := by exact_mod_cast hb
  have hcomm : q0 * b = b * q0 := Nat.mul_comm _ _
  constructor
  · rw [lt_div_iff₀ hbq]
    have goalNat : (1 + q0 - 1) * b < a := by
      rw [Nat.add_sub_cancel_left, hcomm]; omega
    exact_mod_cast goalNat
  · rw [div_le_iff₀ hbq]
    have goalNat : a ≤ (1 + q0) * b := by
      rw [Nat.add_mul, Nat.one_mul, hcomm]; omega
    exact_mod_cast goalNat

/-- The base64 alphabet decodes its own characters. -/
theorem b64Val_b64Char : ∀ v : Nat, v < 64 → b64Val (b64Char v) = some v := by decide

/-- Padding characters are skipped by the decoder. -/
theorem b64Val_pad : b64Val '=' = none := by decide

/-- Lenient decoding inverts encoding on byte lists. -/
theorem base64_roundtrip (bs : List Nat) (hb : ∀ b ∈ bs, b < 256) :
    base64Decode (base64Encode bs) = bs := by
  induction bs using base64Encode.induct with
  | case1 => rfl
  | case2 a =>
    have ha : a < 256 := hb a (by simp)
    have h1 := b64Val_b64Char (a / 4) (by omega)
    have h2 := b64Val_b64Char (a % 4 * 16) (by omega)
    simp [base64Decode, base64Encode, List.filterMap_cons, h1, h2, b64Val_pad, b64Group]
    omega
  | case3 a b =>
    have ha : a < 256 := hb a (by simp)
    have hbb : b < 256 := hb b (by simp)
    have h1 := b64Val_b64Char (a / 4) (by omega)
    have h2 := b64Val_b64Char (a % 4 * 16 + b / 16) (by omega)
    have h3 := b64Val_b64Char (b % 16 * 4) (by omega)
    simp [base64Decode, base64Encode, List.filterMap_cons, h1, h2, h3, b64Val_pad, b64Group]
    constructor <;> omega
  | case4 a b c rest ih =>
    have ha : a < 256 := hb a (by simp)
    have hbb : b < 256 := hb b (by simp)
    have hc : c < 256 := hb c (by simp)
    have hrest : ∀ x ∈ rest, x < 256 := fun x hx => hb x (by simp [hx])
    have h1 := b64Val_b64Char (a / 4) (by omega)
    have h2 := b64Val_b64Char (a % 4 * 16 + b / 16) (by omega)
    have h3 := b64Val_b64Char (b % 16 * 4 + c / 64) (by omega)
    have h4 := b64Val_b64Char (c % 64) (by omega)
    have ih2 := ih hrest
    simp only [base64Decode, base64Encode, List.filterMap_cons, h1, h2, h3, h4] at *
    simp only [b64Group, List.cons.injEq]
    exact ⟨by omega, by omega, by omega, ih2⟩

/-- Encoding a nonempty byte list yields a nonempty character list. -/
theorem base64Encode_ne_nil (bs : List Nat) (h : bs ≠ []) : base64Encode bs ≠ [] := by
  match bs with
  | [] => exact absurd rfl h
  | [a] => simp [base64Encode]
  | [a, b] => simp [base64Encode]
  | a :: b :: c :: rest => simp [base64Encode]

/-- Every character's code point is below `0x110000`. -/
theorem char_toNat_lt (c : Char) : c.toNat < 1114112 := by
  have h := c.valid
  simp only [Char.toNat]
  rcases h with h | h
  · omega
  · omega

/-- An ASCII lead byte decodes to itself. -/
theorem utf8Step_one (b : Nat) (hb : b < 128) (rest : List Nat) :
    utf8Step b rest = (Char.ofNat b, 0) := by
  simp [utf8Step, hb]

/-- A two-byte sequence decodes to its code point. -/
theorem utf8Step_two (n : Nat) (h1 : 128 ≤ n) (h2 : n < 2048) (tail : List Nat) :
    utf8Step (192 + n / 64) ((128 + n % 64) :: tail) = (Char.ofNat n, 1) := by
  have e : (192 + n / 64 - 192) * 64 + (128 + n % 64 - 128) = n := by omega
  simp only [utf8Step, isCont]
  rw [if_neg (by omega), if_neg (by omega), if_pos (by omega), if_pos (by simp; omega), e]

/-- A three-byte sequence decodes to its code point. -/
theorem utf8Step_three (n : Nat) (h1 : 2048 ≤ n) (h2 : n < 65536) (tail : List Nat) :
    utf8Step (224 + n / 4096) ((128 + n / 64 % 64) :: (128 + n % 64) :: tail) =
      (Char.ofNat n, 2) := by
  have e : (224 + n / 4096 - 224) * 4096 + (128 + n / 64 % 64 - 128) * 64 +
      (128 + n % 64 - 128) = n := by omega
  simp only [utf8Step, isCont]
  rw [if_neg (by omega), if_neg (by omega), if_neg (by omega), if_pos (by omega),
    if_pos (by constructor <;> (simp; omega)), e]

/-- A four-byte sequence decodes to its code point. -/
theorem utf8Step_four (n : Nat) (h1 : 65536 ≤ n) (h2 : n < 1114112) (tail : List Nat) :
    utf8Step (240 + n / 262144)
      ((128 + n / 4096 % 64) :: (128 + n / 64 % 64) :: (128 + n % 64) :: tail) =
      (Char.ofNat n, 3) := by
  have e : (240 + n / 262144 - 240) * 262144 + (128 + n / 4096 % 64 - 128) * 4096 +
      (128 + n / 64 % 64 - 128) * 64 + (128 + n % 64 - 128) = n := by omega
  simp only [utf8Step, isCont]
  rw [if_neg (by omega), if_neg (by omega), if_neg (by omega), if_neg (by omega),
    if_pos (by refine ⟨?_, ?_, ?_⟩ <;> (simp; omega)), e]

/-- The fueled decoder inverts encoding given adequate fuel. -/
theorem utf8DecodeF_encode (s : List Char) :
    ∀ fuel : Nat, (utf8Encode s).length + 1 ≤ fuel →
    utf8DecodeF fuel (utf8Encode s) = s := by
  induction s with
  | nil =>
    intro fuel hf
    obtain ⟨f, rfl⟩ : ∃ f, fuel = f + 1 := ⟨fuel - 1, by omega⟩
    simp [utf8Encode, utf8DecodeF]
  | cons c rest ih =>
    intro fuel hf
    obtain ⟨f, rfl⟩ : ∃ f, fuel = f + 1 := ⟨fuel - 1, by omega⟩
    have hc : c.toNat < 1114112 := char_toNat_lt c
    have hofNat : Char.ofNat c.toNat = c := Char.ofNat_toNat c
    have hlen : (utf8Encode (c :: rest)).length = (utf8EncodeChar c).length +
        (utf8Encode rest).length := by
      simp [utf8Encode, List.length_append]
    by_cases h1 : c.toNat < 128
    · have hb : (utf8EncodeChar c).length = 1 := by simp [utf8EncodeChar, h1]
      simp only [utf8Encode, utf8EncodeChar, if_pos h1, List.cons_append, List.nil_append]
      rw [utf8DecodeF, utf8Step_one _ h1]
      simp only [List.drop_zero]
      rw [ih f (by rw [hlen, hb] at hf; omega)]
      simp [hofNat]
    · by_cases h2 : c.toNat < 2048
      · have hb : (utf8EncodeChar c).length = 2 := by simp [utf8EncodeChar, h1, h2]
        simp only [utf8Encode, utf8EncodeChar, if_neg h1, if_pos h2, List.cons_append,
          List.nil_append]
        rw [utf8DecodeF, utf8Step_two c.toNat (by omega) h2]
        simp only [List.drop_succ_cons, List.drop_zero]
        rw [ih f (by rw [hlen, hb] at hf; omega)]
        simp [hofNat]
      · by_cases h3 : c.toNat < 65536
        · have hb : (utf8EncodeChar c).length = 3 := by simp [utf8EncodeChar, h1, h2, h3]
          simp only [utf8Encode, utf8EncodeChar, if_neg h1, if_neg h2, if_pos h3,
            List.cons_append, List.nil_append]
          rw [utf8DecodeF, utf8Step_three c.toNat (by omega) h3]
          simp only [List.drop_succ_cons, List.drop_zero]
          rw [ih f (by rw [hlen, hb] at hf; omega)]
          simp [hofNat]
        · have hb : (utf8EncodeChar c).length = 4 := by simp [utf8EncodeChar, h1, h2, h3]
          simp only [utf8Encode, utf8EncodeChar, if_neg h1, if_neg h2, if_neg h3,
            List.cons_append, List.nil_append]
          rw [utf8DecodeF, utf8Step_four c.toNat (by omega) (by omega)]
          simp only [List.drop_succ_cons, List.drop_zero]
          rw [ih f (by rw [hlen, hb] at hf; omega)]
          simp [hofNat]

/-- UTF-8 decoding inverts encoding. -/
theorem utf8_roundtrip (s : List Char) : utf8Decode (utf8Encode s) = s :=
  utf8DecodeF_encode s ((utf8Encode s).length + 1) (Nat.le_refl _)

/-- UTF-8 encoding emits bytes. -/
theorem utf8Encode_lt (s : List Char) : ∀ b ∈ utf8Encode s, b < 256 := by
  induction s with
  | nil => simp [utf8Encode]
  | cons c rest ih =>
    have hc : c.toNat < 1114112 := char_toNat_lt c
    intro b hbmem
    simp only [utf8Encode, List.mem_append] at hbmem
    rcases hbmem with hbc | hbr
    · by_cases h1 : c.toNat < 128
      · simp [utf8EncodeChar, h1] at hbc; omega
      · by_cases h2 : c.toNat < 2048
        · simp [utf8EncodeChar, h1, h2] at hbc
          rcases hbc with h | h <;> omega
        · by_cases h3 : c.toNat < 65536
          · simp [utf8EncodeChar, h1, h2, h3] at hbc
            rcases hbc with h | h | h <;> omega
          · simp [utf8EncodeChar, h1, h2, h3] at hbc
            rcases hbc with h | h | h | h <;> omega
    · exact ih b hbr

/-- Encoding a nonempty string yields at least one byte. -/
theorem utf8Encode_ne_nil (s : List Char) (h : s ≠ []) : utf8Encode s ≠ [] := by
  match s with
  | [] => exact absurd rfl h
  | c :: rest =>
    simp only [utf8Encode]
    intro hcontra
    rcases List.append_eq_nil.mp hcontra with ⟨he, _⟩
    by_cases h1 : c.toNat < 128
    · simp [utf8EncodeChar, h1] at he
    · by_cases h2 : c.toNat < 2048
      · simp [utf8EncodeChar, h1, h2] at he
      · by_cases h3 : c.toNat < 65536
        · simp [utf8EncodeChar, h1, h2, h3] at he
        · simp [utf8EncodeChar, h1, h2, h3] at he

/-- The hexadecimal digits decode correctly. -/
theorem hexVal_hexDigitChar : ∀ n : Nat, n < 16 → hexVal (hexDigitChar n) = some n := by decide

/-- Scanning a string literal body inverts the stringifier's escaping. -/
theorem scanString_escape : ∀ (s rest : List Char),
    scanString (escapeString s ++ '"' :: rest) = some (s, rest) := by
  intro s
  induction s with
  | nil => intro rest; rw [escapeString, List.nil_append, scanString.eq_def]; simp
  | cons c s ih =>
    intro rest
    simp only [escapeString, List.append_assoc]
    unfold escapeChar
    split_ifs with h1 h2 h3 h4 h5 h6 h7 h8
    · subst h1; rw [List.cons_append, List.cons_append, List.nil_append, scanString.eq_def]
      simp [unescapeChar, ih]
    · subst h2; rw [List.cons_append, List.cons_append, List.nil_append, scanString.eq_def]
      simp [unescapeChar, ih]
    · have hce : Char.ofNat 8 = c := by rw [← h3, Char.ofNat_toNat]
      rw [List.cons_append, List.cons_append, List.nil_append, scanString.eq_def]
      simp [unescapeChar, ih]
      exact hce
    · have hce : Char.ofNat 9 = c := by rw [← h4, Char.ofNat_toNat]
      rw [List.cons_append, List.cons_append, List.nil_append, scanString.eq_def]
      simp [unescapeChar, ih]
      exact hce
    · have hce : Char.ofNat 10 = c := by rw [← h5, Char.ofNat_toNat]
      rw [List.cons_append, List.cons_append, List.nil_append, scanString.eq_def]
      simp [unescapeChar, ih]
      exact hce
    · have hce : Char.ofNat 12 = c := by rw [← h6, Char.ofNat_toNat]
      rw [List.cons_append, List.cons_append, List.nil_append, scanString.eq_def]
      simp [unescapeChar, ih]
      exact hce
    · have hce : Char.ofNat 13 = c := by rw [← h7, Char.ofNat_toNat]
      rw [List.cons_append, List.cons_append, List.nil_append, scanString.eq_def]
      simp [unescapeChar, ih]
      exact hce
    · have h0 : hexVal '0' = some 0 := by decide
      have hhi := hexVal_hexDigitChar (c.toNat / 16) (by omega)
      have hlo := hexVal_hexDigitChar (c.toNat % 16) (by omega)
      have hval : c.toNat / 16 * 16 + c.toNat % 16 = c.toNat := by omega
      have hce : Char.ofNat (c.toNat / 16 * 16 + c.toNat % 16) = c := by
        rw [hval, Char.ofNat_toNat]
      simp only [List.cons_append, List.nil_append]
      rw [scanString.eq_def]
      simp [h0, hhi, hlo, ih, hce]
    · rw [List.cons_append, scanString.eq_def]
      simp [h1, h2, ih]

/-- The parser inverts the stringifier on a one-member object carrying a
string (the attribute-value shape inside a native continuation key). -/
theorem parseVal_attrObj (t s rest : List Char) (fuel : Nat) (hf : 3 ≤ fuel) :
    parseVal fuel (stringifyVal (.obj (.cons t (.str s) .nil)) ++ rest) =
      some (.obj (.cons t (.str s) .nil), rest) := by
  obtain ⟨f, rfl⟩ : ∃ f, fuel = f + 3 := ⟨fuel - 3, by omega⟩
  simp only [stringifyVal, stringifyFields, quoteString, List.cons_append, List.append_assoc,
    List.nil_append]
  rw [parseVal.eq_def]
  simp [parseFields.eq_def, parseVal.eq_def, scanString_escape]

/-- An attribute value of key shape is a one-member object over a string. -/
theorem attr_shape (v : Json) (hv : isAttrJson v = true) :
    ∃ t s, v = .obj (.cons t (.str s) .nil) := by
  cases v with
  | str s => simp [isAttrJson] at hv
  | numRaw s => simp [isAttrJson] at hv
  | jbool b => simp [isAttrJson] at hv
  | jnull => simp [isAttrJson] at hv
  | arr es => simp [isAttrJson] at hv
  | obj fs =>
    cases fs with
    | nil => simp [isAttrJson] at hv
    | cons t v0 rest =>
      cases v0 with
      | str s =>
        cases rest with
        | nil => exact ⟨t, s, rfl⟩
        | cons a b c => simp [isAttrJson] at hv
      | numRaw s => simp [isAttrJson] at hv
      | jbool b => simp [isAttrJson] at hv
      | jnull => simp [isAttrJson] at hv
      | arr es => simp [isAttrJson] at hv
      | obj fs2 => simp [isAttrJson] at hv

/-- The member reader inverts the stringifier on nonempty native-key member
lists, consuming the closing brace. -/
theorem parseFields_native (fs : JFields) (h : isNativeKeyFields fs = true)
    (hne : fs ≠ JFields.nil) (rest : List Char) (fuel : Nat)
    (hf : numFields fs + 3 ≤ fuel) :
    parseFields fuel (stringifyFields fs ++ '}' :: rest) = some (fs, rest) :=
  match fs, h, hne, hf with
  | .nil, _, hne2, _ => absurd rfl hne2
  | .cons n v .nil, h2, _, hf2 => by
    have hv : isAttrJson v = true := by
      simp [isNativeKeyFields] at h2; exact h2
    obtain ⟨t, s, rfl⟩ := attr_shape v hv
    have hn1 : numFields (JFields.cons n (.obj (.cons t (.str s) .nil)) .nil) = 1 := by
      simp [numFields]
    rw [hn1] at hf2
    obtain ⟨f, rfl⟩ : ∃ f, fuel = f + 1 := ⟨fuel - 1, by omega⟩
    have hpv := parseVal_attrObj t s ('}' :: rest) f (by omega)
    simp only [stringifyFields, quoteString, List.cons_append, List.append_assoc,
      List.nil_append]
    rw [parseFields.eq_def]
    simp [scanString_escape, hpv]
  | .cons n v (.cons n2 v2 fs2), h2, _, hf2 => by
    have hsplit : isAttrJson v = true ∧ isNativeKeyFields (JFields.cons n2 v2 fs2) = true := by
      simpa [isNativeKeyFields] using h2
    obtain ⟨t, s, rfl⟩ := attr_shape v hsplit.1
    have hnf : numFields (JFields.cons n (.obj (.cons t (.str s) .nil)) (JFields.cons n2 v2 fs2)) =
        numFields (JFields.cons n2 v2 fs2) + 1 := by simp [numFields]
    rw [hnf] at hf2
    obtain ⟨f, rfl⟩ : ∃ f, fuel = f + 1 := ⟨fuel - 1, by omega⟩
    have hpv := parseVal_attrObj t s
      (',' :: (stringifyFields (JFields.cons n2 v2 fs2) ++ '}' :: rest)) f (by omega)
    have hrec := parseFields_native (JFields.cons n2 v2 fs2) hsplit.2 (by simp) rest f
      (by omega)
    simp only [stringifyFields, quoteString, List.cons_append, List.append_assoc,
      List.nil_append] at hpv hrec ⊢
    rw [parseFields.eq_def]
    simp [scanString_escape, hpv, hrec]

/-- Nonempty member lists render at least one character per member (fuel
adequacy for the top-level parse). -/
theorem stringifyFields_length_native (fs : JFields) (h : isNativeKeyFields fs = true)
    (hne : fs ≠ JFields.nil) : numFields fs + 1 ≤ (stringifyFields fs).length :=
  match fs, h, hne with
  | .nil, _, hne2 => absurd rfl hne2
  | .cons n v .nil, h2, _ => by
    have hv : isAttrJson v = true := by
      simp [isNativeKeyFields] at h2; exact h2
    obtain ⟨t, s, rfl⟩ := attr_shape v hv
    simp [stringifyFields, quoteString, stringifyVal, numFields, List.length_append]
    omega
  | .cons n v (.cons n2 v2 fs2), h2, _ => by
    have hsplit : isAttrJson v = true ∧ isNativeKeyFields (JFields.cons n2 v2 fs2) = true := by
      simpa [isNativeKeyFields] using h2
    have hrec := stringifyFields_length_native (JFields.cons n2 v2 fs2) hsplit.2 (by simp)
    obtain ⟨t, s, rfl⟩ := attr_shape v hsplit.1
    simp only [numFields]
    calc numFields (JFields.cons n2 v2 fs2) + 1 + 1
        ≤ (stringifyFields (JFields.cons n2 v2 fs2)).length + 1 := by omega
      _ ≤ (stringifyFields (JFields.cons n
            (Json.obj (JFields.cons t (Json.str s) JFields.nil)) (JFields.cons n2 v2 fs2))).length := by
          rw [show stringifyFields (JFields.cons n
              (Json.obj (JFields.cons t (Json.str s) JFields.nil)) (JFields.cons n2 v2 fs2)) =
            (quoteString n ++ ':' :: stringifyVal (Json.obj (JFields.cons t (Json.str s) JFields.nil))) ++
              ',' :: stringifyFields (JFields.cons n2 v2 fs2) from rfl]
          simp [quoteString, List.length_append]
          omega

/-- Nonempty native-key member lists render starting with a quote. -/
theorem stringifyFields_cons_head (n : List Char) (v : Json) (fs : JFields) :
    ∃ tail, stringifyFields (JFields.cons n v fs) = '"' :: tail := by
  cases fs with
  | nil => exact ⟨_, rfl⟩
  | cons a b c => exact ⟨_, rfl⟩

/-- `JSON.parse` inverts `JSON.stringify` on native continuation keys. -/
theorem jsonParse_stringify (j : Json) (h : isNativeKey j = true) :
    jsonParse (stringifyVal j) = some j := by
  cases j with
  | str s => simp [isNativeKey] at h
  | numRaw s => simp [isNativeKey] at h
  | jbool b => simp [isNativeKey] at h
  | jnull => simp [isNativeKey] at h
  | arr es => simp [isNativeKey] at h
  | obj fs =>
    have hfs : isNativeKeyFields fs = true := by simpa [isNativeKey] using h
    cases fs with
    | nil => rfl
    | cons n v fs2 =>
      have hlen := stringifyFields_length_native (JFields.cons n v fs2) hfs (by simp)
      have hrec := parseFields_native (JFields.cons n v fs2) hfs (by simp) []
        ((stringifyFields (JFields.cons n v fs2)).length + 2) (by omega)
      obtain ⟨tail, htail⟩ := stringifyFields_cons_head n v fs2
      simp only [jsonParse, stringifyVal, htail]
      rw [parseVal.eq_def]
      rw [htail] at hrec
      simp only [List.cons_append, List.length_cons, List.length_append, List.length_nil] at hrec ⊢
      simp [hrec]

/-- A native key stringifies to a nonempty text. -/
theorem stringifyVal_native_ne_nil (j : Json) (h : isNativeKey j = true) :
    stringifyVal j ≠ [] := by
  cases j with
  | str s => simp [isNativeKey] at h
  | numRaw s => simp [isNativeKey] at h
  | jbool b => simp [isNativeKey] at h
  | jnull => simp [isNativeKey] at h
  | arr es => simp [isNativeKey] at h
  | obj fs => simp [stringifyVal]

/-- The codec round-trip on native continuation keys. -/
theorem cursor_roundtrip (j : Json) (h : isNativeKey j = true) :
    decodeCursor (encodeCursor (some j)) = some j := by
  simp only [encodeCursor, decodeCursor]
  rw [if_neg (base64Encode_ne_nil _ (utf8Encode_ne_nil _ (stringifyVal_native_ne_nil j h)))]
  rw [base64_roundtrip _ (utf8Encode_lt _), utf8_roundtrip, jsonParse_stringify j h]

/-- The next-page cursor is present exactly when the store reported a
continuation key. -/
theorem encodeCursor_isSome (o : Option Json) : (encodeCursor o).isSome = o.isSome := by
  cases o <;> rfl

/-- If the early-exit guard holds `d` queries into the chain and at least two
loop iterations remain, the walk returns the empty page with no continuation
key. -/
theorem queryPageGo_stops (part : List StoreItem) (forward : Bool) (pageSize : Nat) :
    ∀ (d n : Nat) (lk : Option Json), d + 2 ≤ n →
    queryStops part forward pageSize (chainFrom part forward pageSize lk d) →
    queryPageGo part forward pageSize n lk = ([], none) := by
  intro d
  induction d with
  | zero =>
    intro n lk hn hstop
    obtain ⟨m, rfl⟩ : ∃ m, n = m + 2 := ⟨n - 2, by omega⟩
    simp only [chainFrom, queryStops] at hstop
    simp only [queryPageGo]
    rw [if_pos hstop]
  | succ d ih =>
    intro n lk hn hstop
    obtain ⟨m, rfl⟩ : ∃ m, n = m + 2 := ⟨n - 2, by omega⟩
    by_cases h0 : (query part forward pageSize lk).lastEvaluatedKey = none ∨
        (query part forward pageSize lk).count < pageSize
    · simp only [queryPageGo]
      rw [if_pos h0]
    · simp only [queryPageGo]
      rw [if_neg h0]
      exact ih (m + 1) (query part forward pageSize lk).lastEvaluatedKey (by omega) hstop

/-- The page-index walk under an intermediate stop: empty page, no next. -/
theorem queryPage_stops (part : List StoreItem) (forward : Bool)
    (pageIndex pageSize i : Nat) (h1 : 1 ≤ i) (h2 : i < pageIndex)
    (hstop : queryStops part forward pageSize (chainFrom part forward pageSize none (i - 1))) :
    queryPage part forward pageIndex pageSize = ([], false) := by
  have hgo := queryPageGo_stops part forward pageSize (i - 1) pageIndex none (by omega) hstop
  simp [queryPage, hgo]

/-! ## Claim theorems -/

/-- C3: Cursor codec round-trip: for every valid native continuation key `k`
(a mapping of attribute names to scalar values), `decodeCursor (encodeCursor
k) = k`; additionally `encodeCursor undefined = undefined` and `decodeCursor
undefined = undefined`. -/
theorem cursor_codec_roundtrip :
    (∀ j : Json, isNativeKey j = true → decodeCursor (encodeCursor (some j)) = some j) ∧
    encodeCursor none = none ∧ decodeCursor none = none :=
  ⟨fun j h => cursor_roundtrip j h, rfl, rfl⟩

/-- Witness for C3 at a concrete two-attribute key. -/
theorem cursor_codec_roundtrip_witness :
    decodeCursor (encodeCursor (some sKey1)) = some sKey1 :=
  cursor_codec_roundtrip.1 sKey1 (by decide)

/-- C4: Cursor decode leniency: `decodeCursor` is total; on input that fails
to parse as serialized-key JSON it returns `undefined` (so does the absent
cursor and the concrete garbage string `"not-base64-json"`), and an invalid
cursor never causes the comment-read request to be rejected — the request
parses with `exclusiveStartKey = none`, i.e. start from the beginning. -/
theorem cursor_decode_leniency :
    (∀ s : List Char, s ≠ [] → jsonParse (utf8Decode (base64Decode s)) = none →
      decodeCursor (some s) = none) ∧
    decodeCursor (some ("not-base64-json".toList)) = none ∧
    decodeCursor none = none ∧
    (∀ (dl : Nat) (dord pid : List Char) (lr : Option Int) (ord : Option (List Char))
        (s : List Char),
      ∃ req, parseReadRequest true dl dord (some pid) lr ord (some s) = some req ∧
        (jsonParse (utf8Decode (base64Decode s)) = none → req.exclusiveStartKey = none)) := by
  refine ⟨?_, by decide, rfl, ?_⟩
  · intro s hne hparse
    simp [decodeCursor, hne, hparse]
  · intro dl dord pid lr ord s
    refine ⟨_, rfl, ?_⟩
    intro hparse
    by_cases hs : s = []
    · simp [hs, decodeCursor]
    · simp [hs, decodeCursor, hparse]

/-- Witness for C4: the garbage cursor decodes to `undefined` and the request
with it is still accepted, starting from the beginning. -/
theorem cursor_decode_leniency_witness :
    decodeCursor (some ("not-base64-json".toList)) = none ∧
    ∃ req, parseReadRequest true 20 ("desc".toList) (some ("p1".toList)) none none
        (some ("not-base64-json".toList)) = some req ∧
      (jsonParse (utf8Decode (base64Decode ("not-base64-json".toList))) = none →
        req.exclusiveStartKey = none) :=
  ⟨cursor_decode_leniency.2.1,
    cursor_decode_leniency.2.2.2 20 ("desc".toList) ("p1".toList) none none
      ("not-base64-json".toList)⟩

/-- C1: Mode A (page-index addressing): the listing walks the partition from
the start issuing bounded queries of size `pageSize` and following each
returned continuation key until the `pageIndex`-th query; if at any
intermediate step (the `i`-th query with `i < pageIndex`) the store returns
no continuation key or fewer than `pageSize` items, the result is the empty
page with `hasNext = false`.  Over three comments in ascending timestamp
order (`T1 < T2 < T3`, so the partition is `[c1, c2, c3]`), `pageIndex = 1`,
`pageSize = 2`, `order = desc` returns `[T3, T2]`, and `pageIndex = 2`
returns `[T1]` with `hasNext = false`. -/
theorem modeA_pageIndex_walk :
    (∀ (part : List StoreItem) (forward : Bool) (pageIndex pageSize i : Nat),
      1 ≤ i → i < pageIndex →
      queryStops part forward pageSize (chainFrom part forward pageSize none (i - 1)) →
      queryPage part forward pageIndex pageSize = ([], false)) ∧
    (∀ c1 c2 c3 : StoreItem, c3.key ≠ c2.key →
      (listCommentsModeA [c1, c2, c3] 1 2 .desc).elements = [c3.comment, c2.comment] ∧
      (listCommentsModeA [c1, c2, c3] 2 2 .desc).elements = [c1.comment] ∧
      (listCommentsModeA [c1, c2, c3] 2 2 .desc).hasNext = false) := by
  constructor
  · intro part forward pageIndex pageSize i h1 h2 hstop
    exact queryPage_stops part forward pageIndex pageSize i h1 h2 hstop
  · intro c1 c2 c3 h32
    refine ⟨?_, ?_, ?_⟩
    · simp [listCommentsModeA, queryPage, queryPageGo, query, afterKey]
    · simp [listCommentsModeA, queryPage, queryPageGo, query, afterKey, h32]
    · simp [listCommentsModeA, queryPage, queryPageGo, query, afterKey, h32]

/-- Witness for C1: a one-item partition walked to page 3 of size 2 stops at
the first query; the three-comment examples at concrete comments. -/
theorem modeA_pageIndex_walk_witness :
    queryPage [sItem1] false 3 2 = ([], false) ∧
    (listCommentsModeA [sItem1, sItem2, sItem3] 1 2 .desc).elements =
      [sItem3.comment, sItem2.comment] ∧
    (listCommentsModeA [sItem1, sItem2, sItem3] 2 2 .desc).elements = [sItem1.comment] ∧
    (listCommentsModeA [sItem1, sItem2, sItem3] 2 2 .desc).hasNext = false :=
  ⟨modeA_pageIndex_walk.1 [sItem1] false 3 2 1 (by decide) (by decide) (by decide),
    modeA_pageIndex_walk.2 sItem1 sItem2 sItem3 (by decide)⟩

/-- C2: Mode B (cursor addressing): the listing issues exactly one page-fetch
range query starting at the decoded cursor (absent or undecodable cursor
means start of range) with limit clamped to `[1, 1000]` (defaulting from
configuration when the supplied limit is missing or not positive), and the
response's cursor is the encoding of that query's continuation key.  Over
three comments, `limit = 2` with no cursor returns the first two in the
requested order plus a nonempty cursor, and feeding that cursor back with
`limit = 2` returns the remaining one with `hasNext = false`. -/
theorem modeB_cursor_addressing :
    (∀ (dl : Nat) (raw : Option Int), 0 < dl → dl ≤ 1000 →
      1 ≤ effectiveLimit dl raw ∧ effectiveLimit dl raw ≤ 1000) ∧
    (∀ dl : Nat, effectiveLimit dl none = if 1000 < dl then 1000 else dl) ∧
    (∀ (dl : Nat) (v : Int), v ≤ 0 → effectiveLimit dl (some v) = effectiveLimit dl none) ∧
    (∀ (part : List StoreItem) (req : ModeBRequest),
      (listComments part req).cursor = encodeCursor
        (query part (req.order = Order.asc) req.limit req.exclusiveStartKey).lastEvaluatedKey) ∧
    (∀ (i1 i2 i3 : StoreItem) (o : Order) (pid : List Char),
      isNativeKey i2.key = true →
      i1.key ≠ i2.key → i2.key ≠ i3.key →
      (listComments [i1, i2, i3]
          { photoId := pid, limit := 2, order := o, exclusiveStartKey := none }).elements =
        ((if o = Order.asc then [i1, i2, i3] else [i3, i2, i1]).take 2).map StoreItem.comment ∧
      (listComments [i1, i2, i3]
          { photoId := pid, limit := 2, order := o, exclusiveStartKey := none }).cursor.isSome =
        true ∧
      (listComments [i1, i2, i3]
          { photoId := pid, limit := 2, order := o, exclusiveStartKey := none }).hasNext = true ∧
      (listComments [i1, i2, i3]
          { photoId := pid, limit := 2, order := o,
            exclusiveStartKey := decodeCursor (listComments [i1, i2, i3]
              { photoId := pid, limit := 2, order := o,
                exclusiveStartKey := none }).cursor }).elements =
        ((if o = Order.asc then [i1, i2, i3] else [i3, i2, i1]).drop 2).map StoreItem.comment ∧
      (listComments [i1, i2, i3]
          { photoId := pid, limit := 2, order := o,
            exclusiveStartKey := decodeCursor (listComments [i1, i2, i3]
              { photoId := pid, limit := 2, order := o,
                exclusiveStartKey := none }).cursor }).hasNext = false ∧
      (listComments [i1, i2, i3]
          { photoId := pid, limit := 2, order := o,
            exclusiveStartKey := decodeCursor (listComments [i1, i2, i3]
              { photoId := pid, limit := 2, order := o,
                exclusiveStartKey := none }).cursor }).cursor = none) := by
  refine ⟨?_, ?_, ?_, ?_, ?_⟩
  · intro dl raw h1 h2
    unfold effectiveLimit
    match raw with
    | none =>
      dsimp only
      split_ifs <;> constructor <;> omega
    | some v =>
      dsimp only
      by_cases hv : v ≤ 0
      · simp only [if_pos hv]
        split_ifs <;> constructor <;> omega
      · simp only [if_neg hv]
        split_ifs <;> constructor <;> omega
  · intro dl; rfl
  · intro dl v hv
    unfold effectiveLimit
    simp [hv]
  · intro part req; rfl
  · intro i1 i2 i3 o pid hk2 h12 h23
    have hrt := cursor_roundtrip i2.key hk2
    have h21 : i2.key ≠ i1.key := Ne.symm h12
    have h32 : i3.key ≠ i2.key := Ne.symm h23
    have hen : encodeCursor none = none := rfl
    cases o with
    | asc =>
      simp [listComments, query, afterKey, countAll, queryCount, hrt, encodeCursor_isSome,
        h12, h21, h32, hen, List.getLast?_cons_cons, List.getLast?_singleton]
    | desc =>
      simp [listComments, query, afterKey, countAll, queryCount, hrt, encodeCursor_isSome,
        h12, h21, h32, hen, List.getLast?_cons_cons, List.getLast?_singleton]

/-- Witness for C2 at the three concrete sample items, descending order. -/
theorem modeB_cursor_addressing_witness :
    (listComments [sItem1, sItem2, sItem3]
        { photoId := "p1".toList, limit := 2, order := .desc,
          exclusiveStartKey := none }).elements =
      (([sItem3, sItem2, sItem1].take 2).map StoreItem.comment) ∧
    (listComments [sItem1, sItem2, sItem3]
        { photoId := "p1".toList, limit := 2, order := .desc,
          exclusiveStartKey := decodeCursor (listComments [sItem1, sItem2, sItem3]
            { photoId := "p1".toList, limit := 2, order := .desc,
              exclusiveStartKey := none }).cursor }).hasNext = false := by
  have h := modeB_cursor_addressing.2.2.2.2 sItem1 sItem2 sItem3 Order.desc ("p1".toList)
    (by decide) (by decide) (by decide)
  exact ⟨by simpa using h.1, h.2.2.2.2.1⟩

/-- C5: Page-count invariant: in every successful listing response (both the
cursor-mode and the page-index-mode handler), `totalPagesCount` equals
`ceil (totalElements / pageSize)` when `totalElements > 0` (with
`pageSize > 0`) and `0` when `totalElements = 0`; in particular
`totalElements = 0` gives `0` and `totalElements = 5, pageSize = 2` gives
`3`. -/
theorem totalPages_invariant :
    (∀ (part : List StoreItem) (req : ModeBRequest), 0 < req.limit →
      ((listComments part req).totalElements = 0 →
        (listComments part req).totalPagesCount = 0) ∧
      (0 < (listComments part req).totalElements →
        (listComments part req).totalPagesCount =
          ⌈((listComments part req).totalElements : ℚ) / (req.limit : ℚ)⌉₊)) ∧
    (∀ (part : List StoreItem) (pageIndex pageSize : Nat) (o : Order), 0 < pageSize →
      ((listCommentsModeA part pageIndex pageSize o).totalElements = 0 →
        (listCommentsModeA part pageIndex pageSize o).totalPagesCount = 0) ∧
      (0 < (listCommentsModeA part pageIndex pageSize o).totalElements →
        (listCommentsModeA part pageIndex pageSize o).totalPagesCount =
          ⌈((listCommentsModeA part pageIndex pageSize o).totalElements : ℚ) /
            (pageSize : ℚ)⌉₊)) ∧
    totalPages 0 2 = 0 ∧ totalPages 5 2 = 3 := by
  refine ⟨?_, ?_, by decide, by decide⟩
  · intro part req hlim
    have he : (listComments part req).totalElements = countAll part := rfl
    have hp : (listComments part req).totalPagesCount =
        totalPages (countAll part) req.limit := rfl
    rw [he, hp]
    constructor
    · intro h0; simp [totalPages, h0]
    · intro hpos
      simp only [totalPages, if_neg (by omega : ¬ countAll part = 0)]
      exact (ceil_div_eq (countAll part) req.limit hpos hlim).symm
  · intro part pageIndex pageSize o hps
    have he : (listCommentsModeA part pageIndex pageSize o).totalElements = countAll part := rfl
    have hp : (listCommentsModeA part pageIndex pageSize o).totalPagesCount =
        totalPages (countAll part) pageSize := rfl
    rw [he, hp]
    constructor
    · intro h0; simp [totalPages, h0]
    · intro hpos
      simp only [totalPages, if_neg (by omega : ¬ countAll part = 0)]
      exact (ceil_div_eq (countAll part) pageSize hpos hps).symm

/-- Witness for C5: a five-comment partition listed with page size 2 reports
three pages; the empty partition reports zero. -/
theorem totalPages_invariant_witness :
    (listComments [sItem1, sItem1, sItem1, sItem1, sItem1]
        { photoId := "p1".toList, limit := 2, order := .desc,
          exclusiveStartKey := none }).totalPagesCount =
      ⌈((listComments [sItem1, sItem1, sItem1, sItem1, sItem1]
        { photoId := "p1".toList, limit := 2, order := .desc,
          exclusiveStartKey := none }).totalElements : ℚ) / ((2 : Nat) : ℚ)⌉₊ ∧
    (listComments []
        { photoId := "p1".toList, limit := 2, order := .desc,
          exclusiveStartKey := none }).totalPagesCount = 0 :=
  ⟨(totalPages_invariant.1 [sItem1, sItem1, sItem1, sItem1, sItem1]
      { photoId := "p1".toList, limit := 2, order := .desc, exclusiveStartKey := none }
      (by decide)).2 (by decide),
    (totalPages_invariant.1 []
      { photoId := "p1".toList, limit := 2, order := .desc, exclusiveStartKey := none }
      (by decide)).1 (by decide)⟩

/-- C6: Idempotent subscription deletion: for every `(photoId, email)` pair
the delete handler returns a 200 success reporting `existed` =
whether the pair was present, and the store never contains the pair
afterwards; starting from a table without the pair, delete, delete after a
conditional create, and a third delete report `existed` = `false`, `true`,
`false`. -/
theorem subscription_delete_idempotent :
    (∀ (tbl : List SubKey) (p e : List Char),
      (subscriptionDeleteHandler tbl p e).response.statusCode = 200 ∧
      (subscriptionDeleteHandler tbl p e).response = wuSuccess 200
        (.obj (.cons ("photoId".toList) (.str p)
          (.cons ("email".toList) (.str e)
            (.cons ("unsubscribed".toList) (.jbool true)
              (.cons ("existed".toList) (.jbool (decide ((p, e) ∈ tbl))) .nil))))) ∧
      (p, e) ∉ (subscriptionDeleteHandler tbl p e).table) ∧
    (∀ (tbl : List SubKey) (p e : List Char), (p, e) ∉ tbl → toLowerList e = e →
      (deleteSubscription tbl p e).2 = false ∧
      ∃ tbl2, putSubscription (deleteSubscription tbl p e).1 p e = .ok tbl2 ∧
        (deleteSubscription tbl2 p e).2 = true ∧
        (deleteSubscription (deleteSubscription tbl2 p e).1 p e).2 = false) := by
  constructor
  · intro tbl p e
    refine ⟨rfl, rfl, ?_⟩
    intro hmem
    simp only [subscriptionDeleteHandler, deleteSubscription, List.mem_filter] at hmem
    simp at hmem
  · intro tbl p e habs hlow
    have h1 : (deleteSubscription tbl p e).2 = false := by
      simp [deleteSubscription, habs]
    have hnotin : (p, e) ∉ (deleteSubscription tbl p e).1 := by
      intro hmem
      simp only [deleteSubscription, List.mem_filter] at hmem
      simp at hmem
    refine ⟨h1, (deleteSubscription tbl p e).1 ++ [(p, e)], ?_, ?_, ?_⟩
    · simp only [putSubscription, hlow]
      rw [if_neg hnotin]
    · simp [deleteSubscription]
    · have : (p, e) ∉ (deleteSubscription ((deleteSubscription tbl p e).1 ++ [(p, e)]) p e).1 := by
        intro hmem
        simp only [deleteSubscription, List.mem_filter] at hmem
        simp at hmem
      simp [deleteSubscription, this]

/-- Witness for C6: the delete / create / delete / delete story on the empty
table at a concrete pair. -/
theorem subscription_delete_idempotent_witness :
    (deleteSubscription [] ("p1".toList) ("a@b.c".toList)).2 = false ∧
    ∃ tbl2, putSubscription (deleteSubscription [] ("p1".toList) ("a@b.c".toList)).1
        ("p1".toList) ("a@b.c".toList) = .ok tbl2 ∧
      (deleteSubscription tbl2 ("p1".toList) ("a@b.c".toList)).2 = true ∧
      (deleteSubscription (deleteSubscription tbl2 ("p1".toList) ("a@b.c".toList)).1
        ("p1".toList) ("a@b.c".toList)).2 = false :=
  subscription_delete_idempotent.2 [] ("p1".toList) ("a@b.c".toList) (by decide) (by decide)

/-- C8: Best-effort notification publish: when the comment write succeeds,
the handler's outcome does not depend on whether the SNS publish succeeds or
throws — it is always the 201 success envelope with the created comment, and
the stored comment stays in the table. -/
theorem bestEffort_publish (tbl : List (CommentKey × CommentRec))
    (photoId authorName content commentId createdAt : List Char)
    (hfree : (photoId, createdAt ++ '#' :: commentId) ∉ tbl.map Prod.fst) :
    ∀ pub : SnsOutcome,
      commentCreationHandler tbl photoId authorName content commentId createdAt pub =
        commentCreationHandler tbl photoId authorName content commentId createdAt .ok ∧
      commentCreationHandler tbl photoId authorName content commentId createdAt pub =
        (wuSuccess 201 (commentToJson
          { photoId := photoId, commentId := commentId, createdAt := createdAt
            authorName := authorName, content := content }),
          tbl ++ [((photoId, createdAt ++ '#' :: commentId),
            { photoId := photoId, commentId := commentId, createdAt := createdAt
              authorName := authorName, content := content })]) := by
  intro pub
  have hput : putComment tbl photoId authorName content commentId createdAt =
      .ok (tbl ++ [((photoId, createdAt ++ '#' :: commentId),
        { photoId := photoId, commentId := commentId, createdAt := createdAt
          authorName := authorName, content := content })],
        { photoId := photoId, commentId := commentId, createdAt := createdAt
          authorName := authorName, content := content }) := by
    simp only [putComment]
    rw [if_neg hfree]
  cases pub <;> simp [commentCreationHandler, hput, publishSnsEvent, snsSend]

/-- Witness for C8: on the empty table, a failing publish yields the same
201 outcome as a succeeding one. -/
theorem bestEffort_publish_witness :
    commentCreationHandler [] ("p1".toList) ("ann".toList) ("hi".toList) ("c1".toList)
        ("T1".toList) .failed =
      commentCreationHandler [] ("p1".toList) ("ann".toList) ("hi".toList) ("c1".toList)
        ("T1".toList) .ok :=
  (bestEffort_publish [] ("p1".toList) ("ann".toList) ("hi".toList) ("c1".toList)
    ("T1".toList) (by decide) .failed).1

/-- C9 (implicit): a duplicate `(photoId, email)` subscription creation fails
the conditional write; the handler's generic catch maps it to a 500
`internal_service_error` response (not a 4xx and not a success), leaving the
table unchanged — whether the CAPTCHA gate is disabled or passed. -/
theorem duplicate_subscription_internal_error
    (tbl : List SubKey) (p e tokv : List Char) (tok : Option (List Char))
    (ih : Bool) (st : Nat) (hdup : (p, toLowerList e) ∈ tbl) :
    subscriptionCreateHandler false tok ih st tbl p e =
      (wuFailure 500 ("internal_service_error".toList)
        ("An unexpected error occurred".toList), tbl) ∧
    subscriptionCreateHandler true (some tokv) true st tbl p e =
      (wuFailure 500 ("internal_service_error".toList)
        ("An unexpected error occurred".toList), tbl) ∧
    (subscriptionCreateHandler false tok ih st tbl p e).1.statusCode = 500 := by
  have hput : putSubscription tbl p e = .error .conditionalCheckFailed := by
    simp only [putSubscription]
    rw [if_pos hdup]
  refine ⟨?_, ?_, ?_⟩
  · simp [subscriptionCreateHandler, hput]
  · simp [subscriptionCreateHandler, hput]
  · simp [subscriptionCreateHandler, hput, wuFailure, wuSuccess]

/-- Witness for C9 at a concrete duplicate pair. -/
theorem duplicate_subscription_internal_error_witness :
    subscriptionCreateHandler false none true 200 [(("p1".toList), ("a@b.c".toList))]
        ("p1".toList) ("a@b.c".toList) =
      (wuFailure 500 ("internal_service_error".toList)
        ("An unexpected error occurred".toList), [(("p1".toList), ("a@b.c".toList))]) :=
  (duplicate_subscription_internal_error [(("p1".toList), ("a@b.c".toList))]
    ("p1".toList) ("a@b.c".toList) ("t".toList) none true 200 (by decide)).1

/-- C10 (implicit): in every successful cursor-mode listing response,
`hasNext` is `true` iff the `cursor` field is present (both derive from the
store's returned continuation key, and `encodeCursor` returns `undefined`
exactly when no key is present); consequently `hasNext` can be `true` even
when the returned page ended exactly at the last item of the partition. -/
theorem hasNext_iff_cursor :
    (∀ (part : List StoreItem) (req : ModeBRequest),
      (listComments part req).hasNext = (listComments part req).cursor.isSome) ∧
    ((listComments [sItem1, sItem2]
        { photoId := "p1".toList, limit := 2, order := .asc,
          exclusiveStartKey := none }).elements =
      [sItem1.comment, sItem2.comment] ∧
     (listComments [sItem1, sItem2]
        { photoId := "p1".toList, limit := 2, order := .asc,
          exclusiveStartKey := none }).hasNext = true ∧
     (listComments [sItem1, sItem2]
        { photoId := "p1".toList, limit := 2, order := .asc,
          exclusiveStartKey := none }).cursor.isSome = true) := by
  constructor
  · intro part req
    have : (listComments part req).cursor = encodeCursor
        (query part (req.order = Order.asc) req.limit req.exclusiveStartKey).lastEvaluatedKey :=
      rfl
    rw [this, encodeCursor_isSome]
    rfl
  · refine ⟨by decide, by decide, by decide⟩

/-- C7 counterexample: a verification response carrying
`invalid-input-response` together with `timeout-or-duplicate` is classified
with reason `expired`, not `invalid` (the `timeout-or-duplicate` check runs
first), refuting the claim that such a response always yields reason
`invalid`; the outcome is still 400-class. -/
theorem captcha_invalid_reason_counterexample :
    ("invalid-input-response".toList) ∈
      (["timeout-or-duplicate".toList, "invalid-input-response".toList] : List (List Char)) ∧
    (captchaHandler (.response false
      ["timeout-or-duplicate".toList, "invalid-input-response".toList])).status = 400 ∧
    (captchaHandler (.response false
      ["timeout-or-duplicate".toList, "invalid-input-response".toList])).reason =
      some CaptchaReason.expired ∧
    (captchaHandler (.response false
      ["timeout-or-duplicate".toList, "invalid-input-response".toList])).reason ≠
      some CaptchaReason.invalid := by
  refine ⟨by decide, by decide, by decide, by decide⟩

/-- C7 (amended): an upstream timeout produces a `network-error` outcome in
the 5xx infrastructure class (502/503/504), never a 400-class outcome; a
verification response carrying `invalid-input-response` produces a 400-class
outcome, with reason `invalid` unless the codes also contain
`timeout-or-duplicate` (checked first), in which case the reason is
`expired` (still 400-class); client-fixable reasons always map to 400/403
and `network-error` always maps to 502/503/504, so the classes are
disjoint. -/
theorem captcha_classification_amended :
    ((captchaHandler .timeout).reason = some CaptchaReason.networkError ∧
     ((captchaHandler .timeout).status = 502 ∨ (captchaHandler .timeout).status = 503 ∨
       (captchaHandler .timeout).status = 504) ∧
     ¬((captchaHandler .timeout).status = 400 ∨ (captchaHandler .timeout).status = 403)) ∧
    (∀ codes : List (List Char), ("invalid-input-response".toList) ∈ codes →
      (captchaHandler (.response false codes)).status = 400 ∧
      (("timeout-or-duplicate".toList) ∉ codes →
        (captchaHandler (.response false codes)).reason = some CaptchaReason.invalid) ∧
      (("timeout-or-duplicate".toList) ∈ codes →
        (captchaHandler (.response false codes)).reason = some CaptchaReason.expired)) ∧
    (∀ u : UpstreamResult,
      ((captchaHandler u).reason = some CaptchaReason.networkError →
        (captchaHandler u).status = 502 ∨ (captchaHandler u).status = 503 ∨
          (captchaHandler u).status = 504) ∧
      (∀ r : CaptchaReason, (captchaHandler u).reason = some r →
        (r = .expired ∨ r = .invalid ∨ r = .duplicate ∨ r = .badRequest) →
        ((captchaHandler u).status = 400 ∨ (captchaHandler u).status = 403))) := by
  refine ⟨by decide, ?_, ?_⟩
  · intro codes hin
    by_cases ht : ("timeout-or-duplicate".toList) ∈ codes
    · have hcl : classifyReason codes = CaptchaReason.expired := by
        unfold classifyReason
        rw [if_pos ht]
      refine ⟨?_, fun hcon => absurd ht hcon, fun _ => ?_⟩ <;>
        simp [captchaHandler, hcl]
    · have hcl : classifyReason codes = CaptchaReason.invalid := by
        unfold classifyReason
        rw [if_neg ht, if_pos (Or.inl hin)]
      refine ⟨?_, fun _ => ?_, fun hcon => absurd hcon ht⟩ <;>
        simp [captchaHandler, hcl]
  · intro u
    cases u with
    | response success codes =>
      cases success with
      | true => exact ⟨by simp [captchaHandler], fun r hr => by simp [captchaHandler] at hr⟩
      | false =>
        by_cases hc : classifyReason codes = CaptchaReason.expired ∨
            classifyReason codes = CaptchaReason.invalid ∨
            classifyReason codes = CaptchaReason.duplicate ∨
            classifyReason codes = CaptchaReason.badRequest
        · constructor
          · intro hne
            simp only [captchaHandler, if_pos hc] at hne
            rw [Option.some.injEq] at hne
            rcases hc with h1 | h1 | h1 | h1 <;> rw [h1] at hne <;> exact absurd hne (by decide)
          · intro r hr hcl
            simp [captchaHandler, hc]
        · constructor
          · intro hne
            simp [captchaHandler, hc]
          · intro r hr hcl
            simp only [captchaHandler, if_neg hc] at hr
            rw [Option.some.injEq] at hr
            rw [← hr] at hcl
            exact absurd hcl hc
    | timeout =>
      exact ⟨fun _ => by simp [captchaHandler],
        fun r hr hcl => by
          simp only [captchaHandler, Option.some.injEq] at hr
          rw [← hr] at hcl
          rcases hcl with h | h | h | h <;> exact absurd h (by decide)⟩
    | networkFailure c =>
      exact ⟨fun _ => by simp [captchaHandler],
        fun r hr hcl => by
          simp only [captchaHandler, Option.some.injEq] at hr
          rw [← hr] at hcl
          rcases hcl with h | h | h | h <;> exact absurd h (by decide)⟩
    | unexpected =>
      exact ⟨fun hne => by simp [captchaHandler] at hne,
        fun r hr hcl => by
          simp only [captchaHandler, Option.some.injEq] at hr
          rw [← hr] at hcl
          rcases hcl with h | h | h | h <;> exact absurd h (by decide)⟩

/-- Witness for the amended C7: a response carrying only
`invalid-input-response` yields the 400-class `invalid` outcome. -/
theorem captcha_classification_amended_witness :
    (captchaHandler (.response false [("invalid-input-response".toList)])).status = 400 ∧
    (captchaHandler (.response false [("invalid-input-response".toList)])).reason =
      some CaptchaReason.invalid :=
  ⟨(captcha_classification_amended.2.1 [("invalid-input-response".toList)] (by decide)).1,
    (captcha_classification_amended.2.1 [("invalid-input-response".toList)] (by decide)).2.1
      (by decide)⟩

end WeddingBE
